import Mathlib

/-!
Verification development for the resume-upload / profile-merge pipeline.

The development shallowly embeds the core of the program:
  * `save_resume_with_profile` (database.py): the profile reconciler that
    merges a newly extracted profile into the stored document keyed by email;
  * `extract_urls_from_text`, the Gemini prompt truncation, the link
    post-processing and the empty-text guard of `parse` (resume_parser.py);
  * the extraction-failure handling of the upload operation (main.py).

Python dictionaries with heterogeneous values are modelled by association
lists over an untyped value type `Val`; dictionary reads, writes, membership
tests, `dict.update`, `dict.get` with default, and Python truthiness are
given their own definitions mirroring the Python semantics the code relies
on.  Timestamps (`datetime.utcnow()`) are modelled by an explicit `now`
parameter, and MongoDB document identifiers by explicit strings.
-/

/-- Untyped Python-style values: strings, numbers, `None`, lists and
string-keyed dictionaries.  `vint` also stands in for opaque scalar values
such as timestamps and file sizes. -/
inductive Val where
  | vstr (s : String)
  | vint (n : Nat)
  | vnone
  | vlist (xs : List Val)
  | vdict (xs : List (String × Val))

mutual

/-- Decidable equality on `Val` (Python `==` on the modelled values). -/
def Val.deq : (a b : Val) → Decidable (a = b)
  | .vstr s, .vstr t =>
    match String.decEq s t with
    | isTrue h => isTrue (by rw [h])
    | isFalse h => isFalse (fun he => by cases he; exact h rfl)
  | .vint m, .vint n =>
    match Nat.decEq m n with
    | isTrue h => isTrue (by rw [h])
    | isFalse h => isFalse (fun he => by cases he; exact h rfl)
  | .vnone, .vnone => isTrue rfl
  | .vlist xs, .vlist ys =>
    match Val.deqList xs ys with
    | isTrue h => isTrue (by rw [h])
    | isFalse h => isFalse (fun he => by cases he; exact h rfl)
  | .vdict xs, .vdict ys =>
    match Val.deqDict xs ys with
    | isTrue h => isTrue (by rw [h])
    | isFalse h => isFalse (fun he => by cases he; exact h rfl)
  | .vstr _, .vint _ => isFalse (fun h => by cases h)
  | .vstr _, .vnone => isFalse (fun h => by cases h)
  | .vstr _, .vlist _ => isFalse (fun h => by cases h)
  | .vstr _, .vdict _ => isFalse (fun h => by cases h)
  | .vint _, .vstr _ => isFalse (fun h => by cases h)
  | .vint _, .vnone => isFalse (fun h => by cases h)
  | .vint _, .vlist _ => isFalse (fun h => by cases h)
  | .vint _, .vdict _ => isFalse (fun h => by cases h)
  | .vnone, .vstr _ => isFalse (fun h => by cases h)
  | .vnone, .vint _ => isFalse (fun h => by cases h)
  | .vnone, .vlist _ => isFalse (fun h => by cases h)
  | .vnone, .vdict _ => isFalse (fun h => by cases h)
  | .vlist _, .vstr _ => isFalse (fun h => by cases h)
  | .vlist _, .vint _ => isFalse (fun h => by cases h)
  | .vlist _, .vnone => isFalse (fun h => by cases h)
  | .vlist _, .vdict _ => isFalse (fun h => by cases h)
  | .vdict _, .vstr _ => isFalse (fun h => by cases h)
  | .vdict _, .vint _ => isFalse (fun h => by cases h)
  | .vdict _, .vnone => isFalse (fun h => by cases h)
  | .vdict _, .vlist _ => isFalse (fun h => by cases h)

/-- Decidable equality on lists of values. -/
def Val.deqList : (a b : List Val) → Decidable (a = b)
  | [], [] => isTrue rfl
  | [], _ :: _ => isFalse (fun h => by cases h)
  | _ :: _, [] => isFalse (fun h => by cases h)
  | x :: xs, y :: ys =>
    match Val.deq x y, Val.deqList xs ys with
    | isTrue h1, isTrue h2 => isTrue (by rw [h1, h2])
    | isFalse h1, _ => isFalse (fun he => by cases he; exact h1 rfl)
    | _, isFalse h2 => isFalse (fun he => by cases he; exact h2 rfl)

/-- Decidable equality on string-keyed association lists of values. -/
def Val.deqDict : (a b : List (String × Val)) → Decidable (a = b)
  | [], [] => isTrue rfl
  | [], _ :: _ => isFalse (fun h => by cases h)
  | _ :: _, [] => isFalse (fun h => by cases h)
  | (k1, v1) :: xs, (k2, v2) :: ys =>
    match String.decEq k1 k2, Val.deq v1 v2, Val.deqDict xs ys with
    | isTrue h0, isTrue h1, isTrue h2 => isTrue (by rw [h0, h1, h2])
    | isFalse h0, _, _ => isFalse (fun he => by cases he; exact h0 rfl)
    | _, isFalse h1, _ => isFalse (fun he => by cases he; exact h1 rfl)
    | _, _, isFalse h2 => isFalse (fun he => by cases he; exact h2 rfl)

end

instance : DecidableEq Val := Val.deq

/-- A Python dictionary with string keys, modelled as an association list in
insertion order; lookups take the first binding for a key. -/
abbrev Dict := List (String × Val)

/-- Dictionary lookup: `d[k]` / `d.get(k)` when the key is present. -/
def dictGet : Dict → String → Option Val
  | [], _ => none
  | (k1, v) :: rest, k => if k1 = k then some v else dictGet rest k

/-- Dictionary write `d[k] = v`: replaces the first binding of `k`, or
appends a new binding (a new key goes to the end, as in Python insertion
order). -/
def dictSet : Dict → String → Val → Dict
  | [], k, v => [(k, v)]
  | (k1, v1) :: rest, k, v =>
    if k1 = k then (k, v) :: rest else (k1, v1) :: dictSet rest k v

/-- Python membership test `k in d`. -/
def dictContains (d : Dict) (k : String) : Bool :=
  (dictGet d k).isSome

/-- Python `d1.update(d2)`: write every binding of `d2` into `d1`, in the
iteration order of `d2`. -/
def dictUpdate (d1 d2 : Dict) : Dict :=
  d2.foldl (fun acc kv => dictSet acc kv.1 kv.2) d1

/-- Python `d.get(k, default)`. -/
def pyGet (d : Dict) (k : String) (default : Val) : Val :=
  (dictGet d k).getD default

/-- Python `d.get(k)` (default `None`). -/
def pyGetN (d : Dict) (k : String) : Val :=
  pyGet d k .vnone

/-- Python truthiness of a value (`if v:`): `None`, empty strings, zero and
empty collections are falsy. -/
def truthy : Val → Bool
  | .vstr s => !s.isEmpty
  | .vint n => n != 0
  | .vnone => false
  | .vlist xs => !xs.isEmpty
  | .vdict xs => !xs.isEmpty

/-- `isinstance(v, list)` view of a value. -/
def asList : Val → Option (List Val)
  | .vlist xs => some xs
  | _ => none

/-- `isinstance(v, dict)` view of a value. -/
def asDict : Val → Option Dict
  | .vdict xs => some xs
  | _ => none

theorem dictGet_dictSet_self (d : Dict) (k : String) (v : Val) :
    dictGet (dictSet d k v) k = some v := by
  induction d with
  | nil => simp [dictSet, dictGet]
  | cons hd tl ih =>
    obtain ⟨k1, v1⟩ := hd
    by_cases h : k1 = k
    · subst h
      simp [dictSet, dictGet]
    · simp [dictSet, dictGet, h, ih]

theorem dictGet_dictSet_ne (d : Dict) (k1 k : String) (v : Val) (h : k1 ≠ k) :
    dictGet (dictSet d k1 v) k = dictGet d k := by
  induction d with
  | nil => simp [dictSet, dictGet, h]
  | cons hd tl ih =>
    obtain ⟨k2, v2⟩ := hd
    by_cases h2 : k2 = k1
    · subst h2
      simp [dictSet, dictGet, h]
    · simp [dictSet, dictGet, h2, ih]

theorem dictGet_dictUpdate_ne (d1 d2 : Dict) (k : String)
    (h : ∀ p ∈ d2, p.1 ≠ k) :
    dictGet (dictUpdate d1 d2) k = dictGet d1 k := by
  induction d2 generalizing d1 with
  | nil => rfl
  | cons hd tl ih =>
    have hhd : hd.1 ≠ k := h hd (List.mem_cons_self hd tl)
    have htl : ∀ p ∈ tl, p.1 ≠ k := fun p hp => h p (List.mem_cons_of_mem hd hp)
    show dictGet (dictUpdate (dictSet d1 hd.1 hd.2) tl) k = dictGet d1 k
    rw [ih (dictSet d1 hd.1 hd.2) htl, dictGet_dictSet_ne _ _ _ _ hhd]

theorem dictContains_eq_true_iff (d : Dict) (k : String) :
    dictContains d k = true ↔ ∃ v, dictGet d k = some v := by
  unfold dictContains
  cases h : dictGet d k <;> simp [Option.isSome]

/-! ## Profile reconciler (database.py, `save_resume_with_profile`) -/

/-- The field names the reconciler overwrites from the new extraction
whenever the new extraction supplies them (database.py lines 226-231,
`fields_to_update`).  Note that the list includes `"experience"` and
`"skills"`. -/
def fields_to_update : List String :=
  ["name", "phone", "location", "linkedin", "github", "portfolio", "summary",
   "languages", "education", "experience", "projects", "certifications",
   "awards", "publications", "volunteer_work", "leadership", "hobbies",
   "memberships", "patents", "conferences", "references", "skills"]

/-- The base document of resume metadata (database.py lines 179-187).  The
`uploaded_at` default and the later `created_at` writes use the `now`
parameter standing for `datetime.utcnow()`. -/
def baseDocument (resume_data : Dict) (now : Val) : Dict :=
  [("filename", pyGetN resume_data "filename"),
   ("original_filename", pyGetN resume_data "original_filename"),
   ("s3_key", pyGetN resume_data "s3_key"),
   ("s3_url", pyGetN resume_data "s3_url"),
   ("file_size", pyGetN resume_data "file_size"),
   ("uploaded_at", pyGet resume_data "uploaded_at" now),
   ("status", Val.vstr "uploaded")]

/-- The skills merge (database.py lines 203-207): when both the stored and
the new `skills` values are lists, store `list(set(existing + new))`.
Python sets enumerate in unspecified order, so the deduplicated
concatenation `List.dedup` is the model; only its membership (the set of
skills) is ever asserted.  (`set()` additionally requires hashable
elements; the theorems below only instantiate skills with scalar values,
matching the data-model invariant that skills is a list of strings.) -/
def mergeSkills (merged pd : Dict) : Dict :=
  match asList (pyGet merged "skills" (.vlist [])),
        asList (pyGet pd "skills" (.vlist [])) with
  | some ex, some nw => dictSet merged "skills" (.vlist (List.dedup (ex ++ nw)))
  | _, _ => merged

/-- One step of the experience deduplication loop (database.py lines
214-222): an incoming dict entry is appended unless some dict entry already
in `combined` agrees with it on both `company` and `title` (`dict.get`
comparisons, so a missing key reads `None`); non-dict incoming entries are
skipped. -/
def mergeExperienceList (existing nw : List Val) : List Val :=
  nw.foldl (fun combined exp =>
    match asDict exp with
    | some ed =>
      if combined.any (fun e =>
          match asDict e with
          | some d =>
            decide (pyGetN d "company" = pyGetN ed "company") &&
            decide (pyGetN d "title" = pyGetN ed "title")
          | none => false)
      then combined
      else combined ++ [exp]
    | none => combined) existing

/-- The experience merge (database.py lines 209-223): when both the stored
and the new `experience` values are lists, store the deduplicated
combination. -/
def mergeExperience (merged pd : Dict) : Dict :=
  match asList (pyGet merged "experience" (.vlist [])),
        asList (pyGet pd "experience" (.vlist [])) with
  | some ex, some nw =>
      dictSet merged "experience" (.vlist (mergeExperienceList ex nw))
  | _, _ => merged

/-- The overwrite loop (database.py lines 232-234): for every key of
`fields_to_update` that is present in the new extraction, replace the
merged value by the new value. -/
def updateFields (merged pd : Dict) : Dict :=
  fields_to_update.foldl
    (fun m key => if dictContains pd key then dictSet m key (pyGetN pd key) else m)
    merged

/-- The whole merged document for the update path (database.py lines
201-241): start from a copy of the existing document, merge skills and
experience, run the overwrite loop, set `updated_at` and `parsed_at`, and
finally `update` with the resume-metadata document. -/
def merge_profile (edoc pd document : Dict) (now : Val) : Dict :=
  dictUpdate
    (dictSet
      (dictSet (updateFields (mergeExperience (mergeSkills edoc pd) pd) pd)
        "updated_at" now)
      "parsed_at" (pyGet pd "parsed_at" now))
    document

/-- `collection.find_one({"email": email})` over the modelled collection of
(identifier, document) pairs: the first document whose `email` field equals
the given value. -/
def findOne (collection : List (String × Dict)) (email : Val) :
    Option (String × Dict) :=
  collection.find? (fun p => dictGet p.2 "email" == some email)

/-- Outcome of `save_resume_with_profile`: the returned identifier, whether
the write was an update of an existing document (as opposed to an insert),
and the document written. -/
structure SaveResult where
  returnedId : String
  wasUpdate : Bool
  written : Dict

/-- Shallow embedding of `save_resume_with_profile` (database.py lines
155-265).  `collection` is the stored state, `freshId` the identifier the
store would assign on insert, `now` stands for `datetime.utcnow()`.
The structure mirrors the source: build the metadata document; if profile
data is present (truthy) and has a truthy email matched by an existing
document, compute the merged document and update it, returning the existing
identifier; otherwise copy the non-`None` profile fields onto the metadata
document, stamp `created_at` (and `updated_at` when profile data exists)
and insert. -/
def save_resume_with_profile (collection : List (String × Dict))
    (freshId : String) (now : Val) (resume_data : Dict)
    (profile_data : Option Dict) : SaveResult :=
  let document := baseDocument resume_data now
  match profile_data with
  | some pd =>
    if pd.isEmpty then
      { returnedId := freshId, wasUpdate := false,
        written := dictSet document "created_at" now }
    else
      match (if truthy (pyGetN pd "email")
             then findOne collection (pyGetN pd "email") else none) with
      | some (eid, edoc) =>
        { returnedId := eid, wasUpdate := true,
          written := merge_profile edoc pd document now }
      | none =>
        let doc2 := pd.foldl
          (fun d kv => if kv.2 = Val.vnone then d else dictSet d kv.1 kv.2)
          document
        { returnedId := freshId, wasUpdate := false,
          written := dictSet (dictSet doc2 "created_at" now) "updated_at" now }
  | none =>
    { returnedId := freshId, wasUpdate := false,
      written := dictSet document "created_at" now }

/-! ## Lemmas about the update path of the reconciler -/

theorem save_update_path (collection : List (String × Dict)) (freshId : String)
    (now : Val) (resume_data pd : Dict) (eid : String) (edoc : Dict)
    (hpd : pd ≠ [])
    (ht : truthy (pyGetN pd "email") = true)
    (hf : findOne collection (pyGetN pd "email") = some (eid, edoc)) :
    save_resume_with_profile collection freshId now resume_data (some pd) =
      { returnedId := eid, wasUpdate := true,
        written := merge_profile edoc pd (baseDocument resume_data now) now } := by
  have hempty : pd.isEmpty = false := by
    cases pd with
    | nil => exact absurd rfl hpd
    | cons a t => rfl
  simp only [save_resume_with_profile, hempty, ht, hf, Bool.false_eq_true,
    if_false, if_true, reduceCtorEq]

theorem dictGet_mergeSkills_ne (edoc pd : Dict) (k : String)
    (hk : k ≠ "skills") :
    dictGet (mergeSkills edoc pd) k = dictGet edoc k := by
  unfold mergeSkills
  cases h1 : asList (pyGet edoc "skills" (.vlist [])) with
  | none => cases h2 : asList (pyGet pd "skills" (.vlist [])) <;> rfl
  | some ex =>
    cases h2 : asList (pyGet pd "skills" (.vlist [])) with
    | none => rfl
    | some nw => exact dictGet_dictSet_ne _ _ _ _ (fun he => hk (he ▸ rfl))

theorem dictGet_mergeExperience_ne (edoc pd : Dict) (k : String)
    (hk : k ≠ "experience") :
    dictGet (mergeExperience edoc pd) k = dictGet edoc k := by
  unfold mergeExperience
  cases h1 : asList (pyGet edoc "experience" (.vlist [])) with
  | none => cases h2 : asList (pyGet pd "experience" (.vlist [])) <;> rfl
  | some ex =>
    cases h2 : asList (pyGet pd "experience" (.vlist [])) with
    | none => rfl
    | some nw => exact dictGet_dictSet_ne _ _ _ _ (fun he => hk (he ▸ rfl))

theorem dictGet_foldSet (ks : List String) (m pd : Dict) (k : String) :
    dictGet (ks.foldl
      (fun m key =>
        if dictContains pd key then dictSet m key (pyGetN pd key) else m) m) k =
    if k ∈ ks ∧ dictContains pd k = true then some (pyGetN pd k)
    else dictGet m k := by
  induction ks generalizing m with
  | nil => simp
  | cons a t ih =>
    rw [List.foldl_cons, ih]
    by_cases hmem : k ∈ t ∧ dictContains pd k = true
    · have : k ∈ a :: t ∧ dictContains pd k = true :=
        ⟨List.mem_cons_of_mem a hmem.1, hmem.2⟩
      rw [if_pos hmem, if_pos this]
    · rw [if_neg hmem]
      by_cases ha : a = k
      · subst ha
        by_cases hc : dictContains pd a = true
        · have : a ∈ a :: t ∧ dictContains pd a = true :=
            ⟨List.mem_cons_self a t, hc⟩
          rw [if_pos this, if_pos hc, dictGet_dictSet_self]
        · have hcf : dictContains pd a = false := by
            cases h : dictContains pd a
            · rfl
            · exact absurd h hc
          have : ¬ (a ∈ a :: t ∧ dictContains pd a = true) := fun h => hc h.2
          rw [if_neg this, if_neg hc]
      · have hmem2 : ¬ (k ∈ a :: t ∧ dictContains pd k = true) := by
          intro h
          rcases List.mem_cons.mp h.1 with h1 | h1
          · exact ha h1.symm
          · exact hmem ⟨h1, h.2⟩
        rw [if_neg hmem2]
        by_cases hc : dictContains pd a = true
        · rw [if_pos hc, dictGet_dictSet_ne _ _ _ _ ha]
        · rw [if_neg hc]

theorem dictGet_updateFields (m pd : Dict) (k : String) :
    dictGet (updateFields m pd) k =
      if k ∈ fields_to_update ∧ dictContains pd k = true
      then some (pyGetN pd k) else dictGet m k := by
  unfold updateFields
  exact dictGet_foldSet fields_to_update m pd k

theorem baseDocument_keys (resume_data : Dict) (now : Val) :
    ∀ p ∈ baseDocument resume_data now,
      p.1 ∈ ["filename", "original_filename", "s3_key", "s3_url",
             "file_size", "uploaded_at", "status"] := by
  intro p hp
  simp only [baseDocument, List.mem_cons, List.not_mem_nil, or_false] at hp
  rcases hp with h | h | h | h | h | h | h <;> subst h <;> simp

/-- Reading a profile field through the final merged document: a field that
is none of the metadata keys of the base document and neither `updated_at`
nor `parsed_at` reads from the overwrite-loop result. -/
theorem dictGet_merge_profile (edoc pd resume_data : Dict) (now : Val)
    (k : String)
    (hk : k ∉ ["filename", "original_filename", "s3_key", "s3_url",
               "file_size", "uploaded_at", "status", "updated_at",
               "parsed_at"]) :
    dictGet (merge_profile edoc pd (baseDocument resume_data now) now) k =
      dictGet (updateFields (mergeExperience (mergeSkills edoc pd) pd) pd) k := by
  simp only [List.mem_cons, List.not_mem_nil, or_false, not_or] at hk
  obtain ⟨h1, h2, h3, h4, h5, h6, h7, h8, h9⟩ := hk
  unfold merge_profile
  rw [dictGet_dictUpdate_ne _ _ _ (by
    intro p hp
    have := baseDocument_keys resume_data now p hp
    simp only [List.mem_cons, List.not_mem_nil, or_false] at this
    rcases this with h | h | h | h | h | h | h <;> rw [h] <;>
      [exact fun he => h1 he.symm; exact fun he => h2 he.symm;
       exact fun he => h3 he.symm; exact fun he => h4 he.symm;
       exact fun he => h5 he.symm; exact fun he => h6 he.symm;
       exact fun he => h7 he.symm])]
  rw [dictGet_dictSet_ne _ _ _ _ (fun he => h9 he.symm),
      dictGet_dictSet_ne _ _ _ _ (fun he => h8 he.symm)]

/-- The overwrite fields named by the spec: every reconciler field except
the two accumulation fields `skills` and `experience`. -/
def overwrite_fields : List String :=
  ["name", "phone", "location", "linkedin", "github", "portfolio", "summary",
   "languages", "education", "projects", "certifications", "awards",
   "publications", "volunteer_work", "leadership", "hobbies", "memberships",
   "patents", "conferences", "references"]

theorem overwrite_fields_spec (f : String) (hf : f ∈ overwrite_fields) :
    f ∈ fields_to_update ∧
    f ∉ ["filename", "original_filename", "s3_key", "s3_url", "file_size",
         "uploaded_at", "status", "updated_at", "parsed_at"] := by
  fin_cases hf <;> exact ⟨by decide, by decide⟩

theorem baseDocument_key_ne (resume_data : Dict) (now : Val) (k : String)
    (hk : k ∉ ["filename", "original_filename", "s3_key", "s3_url",
               "file_size", "uploaded_at", "status"]) :
    ∀ p ∈ baseDocument resume_data now, p.1 ≠ k := by
  intro p hp he
  exact hk (he ▸ baseDocument_keys resume_data now p hp)

theorem dictGet_merge_profile_updated_at (edoc pd resume_data : Dict)
    (now : Val) :
    dictGet (merge_profile edoc pd (baseDocument resume_data now) now)
      "updated_at" = some now := by
  unfold merge_profile
  rw [dictGet_dictUpdate_ne _ _ _ (baseDocument_key_ne _ _ _ (by decide)),
      dictGet_dictSet_ne _ _ _ _ (by decide), dictGet_dictSet_self]

theorem dictGet_merge_profile_parsed_at (edoc pd resume_data : Dict)
    (now : Val) :
    dictGet (merge_profile edoc pd (baseDocument resume_data now) now)
      "parsed_at" = some (pyGet pd "parsed_at" now) := by
  unfold merge_profile
  rw [dictGet_dictUpdate_ne _ _ _ (baseDocument_key_ne _ _ _ (by decide)),
      dictGet_dictSet_self]

/-! ## C1 and C2: the computed skills/experience merges are clobbered -/

/-- Shared timestamp stand-in for the concrete merge scenarios. -/
def mergeDemoNow : Val := .vint 0

/-- Resume metadata of the first demo upload. -/
def mergeDemoMeta1 : Dict :=
  [("filename", .vstr "r1.pdf"), ("original_filename", .vstr "resume.pdf"),
   ("s3_key", .vstr "resumes/r1.pdf"),
   ("s3_url", .vstr "https://bucket/resumes/r1.pdf"),
   ("file_size", .vint 100)]

/-- Resume metadata of the second demo upload. -/
def mergeDemoMeta2 : Dict :=
  [("filename", .vstr "r2.pdf"), ("original_filename", .vstr "resume2.pdf"),
   ("s3_key", .vstr "resumes/r2.pdf"),
   ("s3_url", .vstr "https://bucket/resumes/r2.pdf"),
   ("file_size", .vint 200)]

/-- First extraction for `a@x.com`: skills `["Go", "SQL"]`. -/
def skillsDemoProfile1 : Dict :=
  [("email", .vstr "a@x.com"),
   ("skills", .vlist [.vstr "Go", .vstr "SQL"])]

/-- The document stored by the first upload for `a@x.com`. -/
def skillsDemoStored : Dict :=
  (save_resume_with_profile [] "id1" mergeDemoNow mergeDemoMeta1
    (some skillsDemoProfile1)).written

/-- Second extraction for `a@x.com`: skills `["SQL", "Rust"]`. -/
def skillsDemoProfile2 : Dict :=
  [("email", .vstr "a@x.com"),
   ("skills", .vlist [.vstr "SQL", .vstr "Rust"])]

/-- The outcome of the second upload for `a@x.com`. -/
def skillsDemoResult : SaveResult :=
  save_resume_with_profile [("id1", skillsDemoStored)] "id2" mergeDemoNow
    mergeDemoMeta2 (some skillsDemoProfile2)

/-- C1: the claim fails on the code.  After uploading a resume for
`a@x.com` with skills `["Go", "SQL"]` and a second one with skills
`["SQL", "Rust"]`, the stored skills are exactly `["SQL", "Rust"]` — the
skill `Go` is lost, so the stored skills are not the set union
`{Go, SQL, Rust}` and not a superset of the stored skills.  The union
computed at database.py line 207 is discarded because `fields_to_update`
(lines 226-231) also contains `"skills"`, so line 234 overwrites the merged
list with the raw new list. -/
theorem skills_union_clobbered_by_overwrite :
    dictGet skillsDemoStored "skills" =
      some (.vlist [.vstr "Go", .vstr "SQL"]) ∧
    skillsDemoResult.wasUpdate = true ∧
    skillsDemoResult.returnedId = "id1" ∧
    dictGet skillsDemoResult.written "skills" =
      some (.vlist [.vstr "SQL", .vstr "Rust"]) ∧
    Val.vstr "Go" ∉ [Val.vstr "SQL", Val.vstr "Rust"] := by
  decide

/-- First extraction for `b@x.com`: one experience entry (Acme, Eng). -/
def expDemoProfile1 : Dict :=
  [("email", .vstr "b@x.com"),
   ("experience",
    .vlist [.vdict [("company", .vstr "Acme"), ("title", .vstr "Eng")]])]

/-- The document stored by the first upload for `b@x.com`. -/
def expDemoStored : Dict :=
  (save_resume_with_profile [] "id1" mergeDemoNow mergeDemoMeta1
    (some expDemoProfile1)).written

/-- Second extraction for `b@x.com`: an empty experience list (the
data-model invariant defaults every list field to empty, never null). -/
def expDemoProfile2 : Dict :=
  [("email", .vstr "b@x.com"), ("experience", .vlist [])]

/-- The outcome of the second upload for `b@x.com`. -/
def expDemoResult : SaveResult :=
  save_resume_with_profile [("id1", expDemoStored)] "id2" mergeDemoNow
    mergeDemoMeta2 (some expDemoProfile2)

/-- C2: the claim fails on the code.  The stored profile for `b@x.com` has
one experience entry (Acme, Eng); a second upload for the same email whose
extraction carries an empty experience list produces a stored experience
list of length 0 — the stored entry is lost and the merged length is below
`max(len(P.experience), len(N.experience)) = 1`.  The deduplicated
combination computed at database.py lines 209-223 is discarded because
`fields_to_update` also contains `"experience"`, so line 234 overwrites it
with the raw new list. -/
theorem experience_union_clobbered_by_overwrite :
    dictGet expDemoStored "experience" =
      some (.vlist
        [.vdict [("company", .vstr "Acme"), ("title", .vstr "Eng")]]) ∧
    expDemoResult.wasUpdate = true ∧
    dictGet expDemoResult.written "experience" = some (.vlist []) ∧
    ([] : List Val).length <
      [Val.vdict [("company", .vstr "Acme"), ("title", .vstr "Eng")]].length := by
  decide

/-! ## C3, C4, C5: properties of the update path -/

set_option maxHeartbeats 1000000 in
/-- C3: merging is idempotent.  When the new extraction carries the same
skills list and the same experience list as the stored document (and the
same email, matched by the lookup), the written document has a skills list
with exactly the stored membership and an experience list of unchanged
length.  (This holds because the overwrite loop replaces both fields with
the — identical — new lists.) -/
theorem merge_self_idempotent (collection : List (String × Dict))
    (freshId : String) (now : Val) (resume_data pd : Dict) (eid : String)
    (edoc : Dict) (S E : List Val)
    (hpd : pd ≠ [])
    (ht : truthy (pyGetN pd "email") = true)
    (hf : findOne collection (pyGetN pd "email") = some (eid, edoc))
    (hs1 : dictGet edoc "skills" = some (.vlist S))
    (hs2 : dictGet pd "skills" = some (.vlist S))
    (he1 : dictGet edoc "experience" = some (.vlist E))
    (he2 : dictGet pd "experience" = some (.vlist E)) :
    (∃ S2, dictGet (save_resume_with_profile collection freshId now
        resume_data (some pd)).written "skills" = some (.vlist S2) ∧
        (∀ v, v ∈ S2 ↔ v ∈ S)) ∧
    (∃ E2, dictGet (save_resume_with_profile collection freshId now
        resume_data (some pd)).written "experience" = some (.vlist E2) ∧
        E2.length = E.length) := by
  rw [save_update_path collection freshId now resume_data pd eid edoc hpd ht hf]
  constructor
  · refine ⟨S, ?_, fun v => Iff.rfl⟩
    rw [dictGet_merge_profile edoc pd resume_data now "skills" (by decide),
        dictGet_updateFields,
        if_pos ⟨by decide, by unfold dictContains; rw [hs2]; rfl⟩]
    unfold pyGetN pyGet
    rw [hs2]
    rfl
  · refine ⟨E, ?_, rfl⟩
    rw [dictGet_merge_profile edoc pd resume_data now "experience" (by decide),
        dictGet_updateFields,
        if_pos ⟨by decide, by unfold dictContains; rw [he2]; rfl⟩]
    unfold pyGetN pyGet
    rw [he2]
    rfl

/-- C3 witness: a concrete stored document and an identical new extraction
for `w@x.com`. -/
def idemDemoStored : Dict :=
  [("email", .vstr "w@x.com"),
   ("skills", .vlist [.vstr "Go", .vstr "SQL"]),
   ("experience",
    .vlist [.vdict [("company", .vstr "Acme"), ("title", .vstr "Eng")]]),
   ("created_at", .vint 1)]

/-- C3 witness profile: the extraction identical to the stored profile. -/
def idemDemoProfile : Dict :=
  [("email", .vstr "w@x.com"),
   ("skills", .vlist [.vstr "Go", .vstr "SQL"]),
   ("experience",
    .vlist [.vdict [("company", .vstr "Acme"), ("title", .vstr "Eng")]])]

/-- C3 witness: instantiating the idempotence theorem at the concrete
profile. -/
theorem merge_self_idempotent_witness :
    (∃ S2, dictGet (save_resume_with_profile [("id1", idemDemoStored)] "id2"
        (.vint 7) mergeDemoMeta2 (some idemDemoProfile)).written "skills" =
        some (.vlist S2) ∧
        (∀ v, v ∈ S2 ↔ v ∈ [Val.vstr "Go", Val.vstr "SQL"])) ∧
    (∃ E2, dictGet (save_resume_with_profile [("id1", idemDemoStored)] "id2"
        (.vint 7) mergeDemoMeta2 (some idemDemoProfile)).written
        "experience" = some (.vlist E2) ∧
        E2.length = [Val.vdict [("company", Val.vstr "Acme"),
          ("title", Val.vstr "Eng")]].length) :=
  merge_self_idempotent [("id1", idemDemoStored)] "id2" (.vint 7)
    mergeDemoMeta2 idemDemoProfile "id1" idemDemoStored
    [Val.vstr "Go", Val.vstr "SQL"]
    [Val.vdict [("company", Val.vstr "Acme"), ("title", Val.vstr "Eng")]]
    (by decide) (by decide) (by decide) (by decide) (by decide) (by decide)
    (by decide)

/-- C4: last-write-wins for the overwrite fields.  For any of the scalar or
list fields outside skills and experience, whenever the new extraction
supplies the field (its key is present), the merged document stores exactly
the new value, regardless of the stored value. -/
theorem merge_overwrite_last_write_wins (collection : List (String × Dict))
    (freshId : String) (now : Val) (resume_data pd : Dict) (eid : String)
    (edoc : Dict) (f : String)
    (hpd : pd ≠ [])
    (ht : truthy (pyGetN pd "email") = true)
    (hf : findOne collection (pyGetN pd "email") = some (eid, edoc))
    (hfield : f ∈ overwrite_fields)
    (hsup : dictContains pd f = true) :
    dictGet (save_resume_with_profile collection freshId now resume_data
      (some pd)).written f = some (pyGetN pd f) := by
  obtain ⟨hmem, hnot⟩ := overwrite_fields_spec f hfield
  rw [save_update_path collection freshId now resume_data pd eid edoc hpd ht hf,
      dictGet_merge_profile edoc pd resume_data now f hnot,
      dictGet_updateFields, if_pos ⟨hmem, hsup⟩]

/-- C4 witness stored document: location Boston. -/
def overwriteDemoStored : Dict :=
  [("email", .vstr "c@x.com"), ("location", .vstr "Boston"),
   ("created_at", .vint 1)]

/-- C4 witness new extraction: location NYC. -/
def overwriteDemoProfile : Dict :=
  [("email", .vstr "c@x.com"), ("location", .vstr "NYC")]

/-- C4 witness: the merged document for `c@x.com` stores the new (non-null)
location `NYC`, not the stored `Boston`. -/
theorem merge_overwrite_last_write_wins_witness :
    dictGet (save_resume_with_profile [("id1", overwriteDemoStored)] "id2"
      (.vint 2) mergeDemoMeta2 (some overwriteDemoProfile)).written
      "location" = some (.vstr "NYC") := by
  have h := merge_overwrite_last_write_wins [("id1", overwriteDemoStored)]
    "id2" (.vint 2) mergeDemoMeta2 overwriteDemoProfile "id1"
    overwriteDemoStored "location" (by decide) (by decide) (by decide)
    (by decide) (by decide)
  have h2 : pyGetN overwriteDemoProfile "location" = .vstr "NYC" := by decide
  rw [h2] at h
  exact h

set_option maxHeartbeats 1000000 in
/-- C5: the write for a matched email is an update, not an insert: it
returns the existing identifier, preserves `created_at` unchanged, sets
`updated_at` to now and `parsed_at` to the new extraction value of
`parsed_at`, defaulting to now when that key is absent. -/
theorem merge_updates_existing_document (collection : List (String × Dict))
    (freshId : String) (now : Val) (resume_data pd : Dict) (eid : String)
    (edoc : Dict)
    (hpd : pd ≠ [])
    (ht : truthy (pyGetN pd "email") = true)
    (hf : findOne collection (pyGetN pd "email") = some (eid, edoc)) :
    (save_resume_with_profile collection freshId now resume_data
      (some pd)).returnedId = eid ∧
    (save_resume_with_profile collection freshId now resume_data
      (some pd)).wasUpdate = true ∧
    dictGet (save_resume_with_profile collection freshId now resume_data
      (some pd)).written "created_at" = dictGet edoc "created_at" ∧
    dictGet (save_resume_with_profile collection freshId now resume_data
      (some pd)).written "updated_at" = some now ∧
    dictGet (save_resume_with_profile collection freshId now resume_data
      (some pd)).written "parsed_at" = some (pyGet pd "parsed_at" now) ∧
    (dictContains pd "parsed_at" = false → pyGet pd "parsed_at" now = now) := by
  rw [save_update_path collection freshId now resume_data pd eid edoc hpd ht hf]
  refine ⟨rfl, rfl, ?_, ?_, ?_, ?_⟩
  · rw [dictGet_merge_profile edoc pd resume_data now "created_at" (by decide),
        dictGet_updateFields,
        if_neg (fun (h : "created_at" ∈ fields_to_update ∧
          dictContains pd "created_at" = true) => absurd h.1 (by decide)),
        dictGet_mergeExperience_ne (mergeSkills edoc pd) pd "created_at"
          (by decide),
        dictGet_mergeSkills_ne edoc pd "created_at" (by decide)]
  · exact dictGet_merge_profile_updated_at edoc pd resume_data now
  · exact dictGet_merge_profile_parsed_at edoc pd resume_data now
  · intro h
    unfold pyGet
    cases hg : dictGet pd "parsed_at" with
    | none => rfl
    | some v =>
      exfalso
      have : dictContains pd "parsed_at" = true := by
        unfold dictContains
        rw [hg]
        rfl
      rw [this] at h
      cases h

/-- C5 witness: the concrete update for `c@x.com` keeps the identifier
`id1`, preserves `created_at`, stamps `updated_at` with now, and defaults
`parsed_at` to now since the extraction supplies none. -/
theorem merge_updates_existing_document_witness :
    (save_resume_with_profile [("id1", overwriteDemoStored)] "id2" (.vint 2)
      mergeDemoMeta2 (some overwriteDemoProfile)).returnedId = "id1" ∧
    (save_resume_with_profile [("id1", overwriteDemoStored)] "id2" (.vint 2)
      mergeDemoMeta2 (some overwriteDemoProfile)).wasUpdate = true ∧
    dictGet (save_resume_with_profile [("id1", overwriteDemoStored)] "id2"
      (.vint 2) mergeDemoMeta2 (some overwriteDemoProfile)).written
      "created_at" = dictGet overwriteDemoStored "created_at" ∧
    dictGet (save_resume_with_profile [("id1", overwriteDemoStored)] "id2"
      (.vint 2) mergeDemoMeta2 (some overwriteDemoProfile)).written
      "updated_at" = some (.vint 2) ∧
    dictGet (save_resume_with_profile [("id1", overwriteDemoStored)] "id2"
      (.vint 2) mergeDemoMeta2 (some overwriteDemoProfile)).written
      "parsed_at" = some (pyGet overwriteDemoProfile "parsed_at" (.vint 2)) ∧
    (dictContains overwriteDemoProfile "parsed_at" = false →
      pyGet overwriteDemoProfile "parsed_at" (.vint 2) = .vint 2) :=
  merge_updates_existing_document [("id1", overwriteDemoStored)] "id2"
    (.vint 2) mergeDemoMeta2 overwriteDemoProfile "id1" overwriteDemoStored
    (by decide) (by decide) (by decide)

/-! ## Link post-processor (resume_parser.py, `parse` lines 411-418) -/

/-- One backfill step: copy the extracted URL for `key` into the parsed
data only when the parsed value is falsy (`not parsed_data.get(key)`) and
the key is present in the extracted URLs. -/
def backfillStep (d eu : Dict) (key : String) : Dict :=
  if !(truthy (pyGetN d key)) && dictContains eu key
  then dictSet d key (pyGetN eu key) else d

/-- The link post-processing of `parse` (resume_parser.py lines 411-418):
under `if extracted_urls:`, backfill `linkedin`, `github` and `portfolio`
in that order. -/
def backfill_links (parsed_data extracted_urls : Dict) : Dict :=
  if extracted_urls.isEmpty then parsed_data
  else
    backfillStep
      (backfillStep (backfillStep parsed_data extracted_urls "linkedin")
        extracted_urls "github")
      extracted_urls "portfolio"

theorem dictGet_backfillStep_ne (d eu : Dict) (key k : String) (h : key ≠ k) :
    dictGet (backfillStep d eu key) k = dictGet d k := by
  unfold backfillStep
  by_cases hc : (!(truthy (pyGetN d key)) && dictContains eu key) = true
  · rw [if_pos hc, dictGet_dictSet_ne _ _ _ _ h]
  · rw [if_neg hc]

theorem pyGetN_backfillStep_ne (d eu : Dict) (key k : String) (h : key ≠ k) :
    pyGetN (backfillStep d eu key) k = pyGetN d k := by
  unfold pyGetN pyGet
  rw [dictGet_backfillStep_ne d eu key k h]

theorem backfillStep_spec (d eu : Dict) (key : String) :
    (truthy (pyGetN d key) = true → backfillStep d eu key = d) ∧
    (dictGet (backfillStep d eu key) key ≠ dictGet d key →
      truthy (pyGetN d key) = false ∧
      dictGet (backfillStep d eu key) key = some (pyGetN eu key)) := by
  constructor
  · intro h
    unfold backfillStep
    rw [h]
    simp
  · intro h
    by_cases hc : (!(truthy (pyGetN d key)) && dictContains eu key) = true
    · have hc2 := hc
      simp only [Bool.and_eq_true, Bool.not_eq_true'] at hc2
      refine ⟨hc2.1, ?_⟩
      unfold backfillStep
      rw [if_pos hc, dictGet_dictSet_self]
    · exfalso
      apply h
      unfold backfillStep
      rw [if_neg hc]

/-- C7 counterexample data: the extraction produced `github` as the empty
string (a non-null value), and the text scan found a different URL. -/
def clobberDemoParsed : Dict :=
  [("name", .vstr "Jo"), ("github", .vstr "")]

/-- C7 counterexample LinkMap: a code-hosting URL for the same field. -/
def clobberDemoUrls : Dict :=
  [("github", .vstr "https://github.com/jo")]

/-- C7 fails as stated: the extraction produced the non-null value `""` for
`github`, yet post-processing replaces it with the LinkMap entry, because
the code tests Python truthiness (`not parsed_data.get('github')`), and an
empty string is falsy.  So a non-null (but empty) extraction value is not
left unchanged. -/
theorem backfill_clobbers_empty_string :
    pyGetN clobberDemoParsed "github" = .vstr "" ∧
    Val.vstr "" ≠ Val.vnone ∧
    dictGet (backfill_links clobberDemoParsed clobberDemoUrls) "github" =
      some (.vstr "https://github.com/jo") ∧
    dictGet (backfill_links clobberDemoParsed clobberDemoUrls) "github" ≠
      dictGet clobberDemoParsed "github" := by
  decide

/-- C7 amended: for each of the three link fields, if the extraction
produced a truthy (non-null and non-empty) value, post-processing leaves
the field unchanged even when the extracted URLs hold a different value;
and whenever post-processing changes the field at all, the extraction value
was falsy (null or empty) and the new value is the extracted URL for that
field. -/
theorem backfill_never_clobbers_truthy (pd eu : Dict) (f : String)
    (hf : f ∈ ["linkedin", "github", "portfolio"]) :
    (truthy (pyGetN pd f) = true →
      dictGet (backfill_links pd eu) f = dictGet pd f) ∧
    (dictGet (backfill_links pd eu) f ≠ dictGet pd f →
      truthy (pyGetN pd f) = false ∧
      dictGet (backfill_links pd eu) f = some (pyGetN eu f)) := by
  by_cases he : eu.isEmpty
  · constructor
    · intro _
      unfold backfill_links
      rw [if_pos he]
    · intro h
      exfalso
      apply h
      unfold backfill_links
      rw [if_pos he]
  · have hbl : backfill_links pd eu =
        backfillStep
          (backfillStep (backfillStep pd eu "linkedin") eu "github")
          eu "portfolio" := by
      unfold backfill_links
      rw [if_neg he]
    simp only [List.mem_cons, List.not_mem_nil, or_false] at hf
    rcases hf with hf | hf | hf <;> subst hf
    · -- linkedin: set by step 1, untouched by steps 2 and 3
      have g3 : dictGet (backfill_links pd eu) "linkedin" =
          dictGet (backfillStep pd eu "linkedin") "linkedin" := by
        rw [hbl, dictGet_backfillStep_ne _ _ _ _ (by decide),
            dictGet_backfillStep_ne _ _ _ _ (by decide)]
      constructor
      · intro h
        rw [g3, (backfillStep_spec pd eu "linkedin").1 h]
      · intro h
        rw [g3] at h ⊢
        exact (backfillStep_spec pd eu "linkedin").2 h
    · -- github: value seen by step 2 equals the original, steps 1 and 3
      -- do not touch the key
      have g1 : dictGet (backfillStep pd eu "linkedin") "github" =
          dictGet pd "github" :=
        dictGet_backfillStep_ne _ _ _ _ (by decide)
      have p1 : pyGetN (backfillStep pd eu "linkedin") "github" =
          pyGetN pd "github" :=
        pyGetN_backfillStep_ne _ _ _ _ (by decide)
      have g3 : dictGet (backfill_links pd eu) "github" =
          dictGet (backfillStep (backfillStep pd eu "linkedin") eu "github")
            "github" := by
        rw [hbl, dictGet_backfillStep_ne _ _ _ _ (by decide)]
      constructor
      · intro h
        rw [g3, (backfillStep_spec _ eu "github").1 (p1.symm ▸ h), g1]
      · intro h
        rw [g3] at h ⊢
        have h2 : dictGet (backfillStep (backfillStep pd eu "linkedin") eu
            "github") "github" ≠
            dictGet (backfillStep pd eu "linkedin") "github" := by
          rw [g1]
          exact h
        have := (backfillStep_spec (backfillStep pd eu "linkedin") eu
          "github").2 h2
        exact ⟨p1 ▸ this.1, this.2⟩
    · -- portfolio: value seen by step 3 equals the original
      have g1 : dictGet (backfillStep pd eu "linkedin") "portfolio" =
          dictGet pd "portfolio" :=
        dictGet_backfillStep_ne _ _ _ _ (by decide)
      have g2 : dictGet (backfillStep (backfillStep pd eu "linkedin") eu
          "github") "portfolio" =
          dictGet (backfillStep pd eu "linkedin") "portfolio" :=
        dictGet_backfillStep_ne _ _ _ _ (by decide)
      have p2 : pyGetN (backfillStep (backfillStep pd eu "linkedin") eu
          "github") "portfolio" = pyGetN pd "portfolio" := by
        rw [pyGetN_backfillStep_ne _ _ _ _ (by decide),
            pyGetN_backfillStep_ne _ _ _ _ (by decide)]
      constructor
      · intro h
        rw [hbl, (backfillStep_spec _ eu "portfolio").1 (p2.symm ▸ h), g2, g1]
      · intro h
        rw [hbl] at h ⊢
        have h2 : dictGet (backfillStep (backfillStep (backfillStep pd eu
            "linkedin") eu "github") eu "portfolio") "portfolio" ≠
            dictGet (backfillStep (backfillStep pd eu "linkedin") eu
              "github") "portfolio" := by
          rw [g2, g1]
          exact h
        have := (backfillStep_spec _ eu "portfolio").2 h2
        exact ⟨p2 ▸ this.1, this.2⟩

/-- C7 witness parsed data: a truthy `github` value. -/
def noClobberDemoParsed : Dict :=
  [("github", .vstr "https://github.com/real")]

/-- C7 witness: with a truthy extraction value for `github`, the backfill
leaves the field unchanged even though the extracted URLs disagree. -/
theorem backfill_never_clobbers_truthy_witness :
    truthy (pyGetN noClobberDemoParsed "github") = true ∧
    dictGet (backfill_links noClobberDemoParsed clobberDemoUrls) "github" =
      dictGet noClobberDemoParsed "github" :=
  ⟨by decide,
   (backfill_never_clobbers_truthy noClobberDemoParsed clobberDemoUrls
     "github" (by decide)).1 (by decide)⟩

/-! ## Structured-extraction client: prompt truncation
(resume_parser.py, `parse_with_gemini` line 357) -/

/-- The resume-text portion of the instruction sent to the external
service: the Python slice `text[:20000]`, i.e. the first 20000 characters
of the extracted text. -/
def gemini_prompt_text (text : String) : String :=
  ⟨text.data.take 20000⟩

/-- C8: the text included in the extraction instruction is at most 20000
characters, is a prefix of the extracted text (truncation happens at the
tail, so the head/contact section is preserved), and equals the whole text
when the text is short enough. -/
theorem gemini_prompt_text_spec (text : String) :
    (gemini_prompt_text text).length ≤ 20000 ∧
    (∃ rest, text = gemini_prompt_text text ++ rest) ∧
    (text.length ≤ 20000 → gemini_prompt_text text = text) := by
  obtain ⟨l⟩ := text
  refine ⟨?_, ⟨⟨l.drop 20000⟩, ?_⟩, ?_⟩
  · show (l.take 20000).length ≤ 20000
    rw [List.length_take]
    exact min_le_left _ _
  · show String.mk l = String.mk (l.take 20000) ++ String.mk (l.drop 20000)
    show String.mk l = String.mk (l.take 20000 ++ l.drop 20000)
    rw [List.take_append_drop]
  · intro h
    show String.mk (l.take 20000) = String.mk l
    rw [List.take_of_length_le h]

/-- C8 witness: a short text passes through the truncation unchanged. -/
theorem gemini_prompt_text_spec_witness :
    ("Jane Doe, j@x.com" : String).length ≤ 20000 ∧
    gemini_prompt_text "Jane Doe, j@x.com" = "Jane Doe, j@x.com" :=
  ⟨by decide, (gemini_prompt_text_spec "Jane Doe, j@x.com").2.2 (by decide)⟩

/-! ## Text and link extractor: `extract_urls_from_text`
(resume_parser.py lines 43-73).

The two regex families the source uses — the absolute-URL pattern and the
three bare-domain patterns — are embedded as executable scanners:
`refindall` mirrors `re.findall` (leftmost, non-overlapping matches, one
attempt per position, each match consuming at least one character), and the
per-pattern matchers mirror the concrete regexes, case-insensitively. -/

/-- Case-insensitive character comparison (`re.IGNORECASE`). -/
def lowerEq (a b : Char) : Bool :=
  a.toLower == b.toLower

/-- Match a literal pattern case-insensitively at the head of the input,
returning the matched characters (original case) and the remainder. -/
def matchLitCI : List Char → List Char → Option (List Char × List Char)
  | [], s => some ([], s)
  | _ :: _, [] => none
  | p :: ps, c :: cs =>
    if lowerEq p c then (matchLitCI ps cs).map (fun r => (c :: r.1, r.2))
    else none

/-- Greedy `+` over a character class: one or more leading characters
satisfying the class, with the remainder. -/
def takeClass1 (p : Char → Bool) : List Char → Option (List Char × List Char)
  | [] => none
  | c :: cs =>
    if p c then some (c :: cs.takeWhile p, cs.dropWhile p) else none

/-- One `re.findall` scan: at each position try the matcher; on a match,
emit it and resume after it, otherwise advance one character.  The fuel is
the input length; every accepted match consumes at least one character, so
the fuel never runs out before the input does. -/
def scanAux (m : List Char → Option (String × List Char)) :
    Nat → List Char → List String
  | 0, _ => []
  | _, [] => []
  | fuel + 1, c :: rest =>
    match m (c :: rest) with
    | some (s, remaining) => s :: scanAux m fuel remaining
    | none => scanAux m fuel rest

/-- `re.findall(pattern, text, re.IGNORECASE)` for a matcher. -/
def refindall (m : List Char → Option (String × List Char)) (text : String) :
    List String :=
  scanAux m text.data.length text.data

/-- The character class `[^\s<>"\x7b\x7d|\\^\x60\[\]]` of the absolute-URL
regex: anything but whitespace and the listed URL-unsafe delimiters. -/
def urlBodyChar (c : Char) : Bool :=
  !(c.isWhitespace || c == '<' || c == '>' || c == '\"' || c == '\x7b' ||
    c == '\x7d' || c == '|' || c == '\\' || c == '^' || c == '\x60' ||
    c == '[' || c == ']')

/-- Matcher for the absolute-URL pattern `https?://` followed by one or
more URL-body characters.  (The optional `s` needs no backtracking: when
the next character is `s`, consuming it is the only way `://` can still
match.) -/
def matchFullUrl (s : List Char) : Option (String × List Char) :=
  match matchLitCI "http".data s with
  | none => none
  | some (m1, r1) =>
    let os : List Char × List Char :=
      match r1 with
      | c :: cs => if lowerEq 's' c then ([c], cs) else ([], r1)
      | [] => ([], r1)
    match matchLitCI "://".data os.2 with
    | none => none
    | some (m3, r3) =>
      match takeClass1 urlBodyChar r3 with
      | none => none
      | some (m4, r4) => some (⟨m1 ++ os.1 ++ m3 ++ m4⟩, r4)

/-- The `\w` class of the bare-domain patterns (ASCII view) plus nothing:
letters, digits and underscore. -/
def wordChar (c : Char) : Bool :=
  c.isAlphanum || c == '_'

/-- Matcher for a bare-domain pattern: a case-insensitive literal followed
by one or more characters of a class. -/
def matchBare (lit : String) (body : Char → Bool) (s : List Char) :
    Option (String × List Char) :=
  match matchLitCI lit.data s with
  | none => none
  | some (m1, r1) =>
    match takeClass1 body r1 with
    | none => none
    | some (m2, r2) => some (⟨m1 ++ m2⟩, r2)

/-- The matcher of `linkedin\.com/in/[\w-]+`. -/
def bareLinkedinIn : List Char → Option (String × List Char) :=
  matchBare "linkedin.com/in/" (fun c => wordChar c || c == '-')

/-- The matcher of `github\.com/[\w-]+`. -/
def bareGithub : List Char → Option (String × List Char) :=
  matchBare "github.com/" (fun c => wordChar c || c == '-')

/-- The matcher of the third bare pattern: the literal `linkedin.com` and
a slash, then one or more of word characters, hyphen or slash. -/
def bareLinkedinAny : List Char → Option (String × List Char) :=
  matchBare "linkedin.com/" (fun c => wordChar c || c == '-' || c == '/')

/-- Does `needle` start `hay`? -/
def listStartsWith : List Char → List Char → Bool
  | [], _ => true
  | _ :: _, [] => false
  | a :: as, b :: bs => a == b && listStartsWith as bs

/-- Is `needle` a contiguous substring of `hay`? -/
def listInfix (needle : List Char) : List Char → Bool
  | [] => needle.isEmpty
  | c :: rest => listStartsWith needle (c :: rest) || listInfix needle rest

/-- Python substring test `needle in hay`. -/
def strContains (hay needle : String) : Bool :=
  listInfix needle.data hay.data

/-- The classification loop over the absolute URLs found in the text
(resume_parser.py lines 51-59): every linkedin URL overwrites the
`linkedin` slot, every github URL the `github` slot, anything else (which
always contains `http`) fills `portfolio` first-found-wins. -/
def classifyFullUrls (found : List String) : Dict :=
  found.foldl (fun urls url =>
    let low := url.toLower
    if strContains low "linkedin.com" || strContains low "linkedin" then
      dictSet urls "linkedin" (.vstr url)
    else if strContains low "github.com" || strContains low "github" then
      dictSet urls "github" (.vstr url)
    else if strContains low "portfolio" || strContains low "website" ||
        (strContains low "http" && !strContains low "linkedin" &&
         !strContains low "github") then
      if dictContains urls "portfolio" then urls
      else dictSet urls "portfolio" (.vstr url)
    else urls) []

/-- One iteration of the bare-domain loop (resume_parser.py lines 68-71):
if the pattern matched and its slot is still empty, store the prefix glued
to the first match. -/
def bareStep (urls : Dict) (found : List String) (key pfx : String) :
    Dict :=
  match found with
  | [] => urls
  | m :: _ =>
    if dictContains urls key then urls
    else dictSet urls key (.vstr (pfx ++ m))

/-- The bare-domain pass (resume_parser.py lines 61-71), its loop unrolled
over the fixed pattern list: `linkedin\.com/in/` then `github\.com/` then
the general linkedin pattern, all with prefix `https://www.`. -/
def applyBarePatterns (urls : Dict) (text : String) : Dict :=
  bareStep
    (bareStep
      (bareStep urls (refindall bareLinkedinIn text) "linkedin"
        "https://www.")
      (refindall bareGithub text) "github" "https://www.")
    (refindall bareLinkedinAny text) "linkedin" "https://www."

/-- Shallow embedding of `extract_urls_from_text` (resume_parser.py lines
43-73): classify the absolute URLs, then backfill from the bare-domain
patterns. -/
def extract_urls_from_text (text : String) : Dict :=
  applyBarePatterns (classifyFullUrls (refindall matchFullUrl text)) text

theorem dictGet_bareStep_ne (urls : Dict) (ms : List String)
    (key pfx k : String) (h : key ≠ k) :
    dictGet (bareStep urls ms key pfx) k = dictGet urls k := by
  cases ms with
  | nil => rfl
  | cons m t =>
    show dictGet (if dictContains urls key = true then urls
      else dictSet urls key (.vstr (pfx ++ m))) k = dictGet urls k
    by_cases hc : dictContains urls key = true
    · rw [if_pos hc]
    · rw [if_neg hc, dictGet_dictSet_ne _ _ _ _ h]

theorem bareStep_of_contains (urls : Dict) (ms : List String)
    (key pfx : String) (h : dictContains urls key = true) :
    bareStep urls ms key pfx = urls := by
  cases ms with
  | nil => rfl
  | cons m t =>
    show (if dictContains urls key = true then urls
      else dictSet urls key (.vstr (pfx ++ m))) = urls
    rw [if_pos h]

theorem bareStep_cons_of_not_contains (urls : Dict) (m : String)
    (t : List String) (key pfx : String)
    (h : dictContains urls key = false) :
    bareStep urls (m :: t) key pfx = dictSet urls key (.vstr (pfx ++ m)) := by
  show (if dictContains urls key = true then urls
    else dictSet urls key (.vstr (pfx ++ m))) =
    dictSet urls key (.vstr (pfx ++ m))
  rw [h]
  simp

/-- C9: a bare professional-network pattern is synthesized into a full URL.
If the bare pattern `linkedin.com/in/(word chars or hyphens)+` matches in
the text (first match `m`) and the absolute-URL pass produced no linkedin
entry, then the extracted URLs map `linkedin` to `https://www.` glued to
`m`. -/
theorem extract_urls_bare_linkedin (text m : String) (ms : List String)
    (h1 : refindall bareLinkedinIn text = m :: ms)
    (h2 : dictContains (classifyFullUrls (refindall matchFullUrl text))
      "linkedin" = false) :
    dictGet (extract_urls_from_text text) "linkedin" =
      some (.vstr ("https://www." ++ m)) := by
  unfold extract_urls_from_text applyBarePatterns
  rw [h1, bareStep_cons_of_not_contains _ _ _ _ _ h2]
  have g1 : dictGet (bareStep
      (dictSet (classifyFullUrls (refindall matchFullUrl text)) "linkedin"
        (.vstr ("https://www." ++ m)))
      (refindall bareGithub text) "github" "https://www.") "linkedin" =
      some (.vstr ("https://www." ++ m)) := by
    rw [dictGet_bareStep_ne _ _ _ _ _ (by decide), dictGet_dictSet_self]
  rw [bareStep_of_contains _ _ _ _ (by unfold dictContains; rw [g1]; rfl)]
  exact g1

/-- C9 witness: the concrete text of the end-to-end scenario, containing
`linkedin.com/in/jdoe` with no scheme, yields the synthesized URL. -/
theorem extract_urls_bare_linkedin_witness :
    refindall bareLinkedinIn "Contact: linkedin.com/in/jdoe" =
      ["linkedin.com/in/jdoe"] ∧
    dictContains (classifyFullUrls (refindall matchFullUrl
      "Contact: linkedin.com/in/jdoe")) "linkedin" = false ∧
    dictGet (extract_urls_from_text "Contact: linkedin.com/in/jdoe")
      "linkedin" = some (.vstr "https://www.linkedin.com/in/jdoe") := by
  refine ⟨by decide, by decide, ?_⟩
  have h := extract_urls_bare_linkedin "Contact: linkedin.com/in/jdoe"
    "linkedin.com/in/jdoe" [] (by decide) (by decide)
  rwa [show ("https://www." ++ "linkedin.com/in/jdoe" : String) =
    "https://www.linkedin.com/in/jdoe" from rfl] at h

/-! ## The public parse operation (resume_parser.py, `parse` lines
385-423) -/

/-- Python `text.strip()`: drop leading and trailing whitespace. -/
def pyStrip (s : String) : String :=
  ⟨((s.data.dropWhile Char.isWhitespace).reverse.dropWhile
      Char.isWhitespace).reverse⟩

/-- Shallow embedding of `ResumeParser.parse`, given the outcome of
`extract_text` (which can raise) and the Gemini stage
(`parse_with_gemini`, an untrusted oracle that can also raise) as
parameters.  The body mirrors the source: propagate extraction failure;
reject the text when it is empty or its stripped length is below 50
(`PDF appears to be empty or unreadable`); otherwise run the oracle and
post-process links with the URLs scanned from the text.  Every error is
re-raised wrapped in `Failed to parse resume`. -/
def parse (extractResult : Except String String)
    (gemini : String → Except String Dict) : Except String Dict :=
  match extractResult with
  | .error e => .error ("Failed to parse resume: " ++ e)
  | .ok text =>
    if text.isEmpty || decide ((pyStrip text).length < 50) then
      .error "Failed to parse resume: PDF appears to be empty or unreadable"
    else
      match gemini text with
      | .error e => .error ("Failed to parse resume: " ++ e)
      | .ok pd => .ok (backfill_links pd (extract_urls_from_text text))

/-- C10: any extracted text whose whitespace-stripped length is below 50
characters is rejected as unreadable — even when extraction succeeded and
the text is non-empty — so the Gemini stage is never reached. -/
theorem parse_rejects_short_text (text : String)
    (gemini : String → Except String Dict)
    (h : (pyStrip text).length < 50) :
    parse (.ok text) gemini =
      .error "Failed to parse resume: PDF appears to be empty or unreadable" := by
  have hcond : (text.isEmpty || decide ((pyStrip text).length < 50)) = true := by
    rw [decide_eq_true h]
    simp
  simp only [parse, hcond, if_true]

/-- C10 witness: a successfully extracted, non-empty, eight-character text
is rejected without consulting the oracle (instantiated with an oracle that
would succeed). -/
theorem parse_rejects_short_text_witness :
    ("John Doe" : String).isEmpty = false ∧
    (pyStrip "John Doe").length < 50 ∧
    parse (.ok "John Doe") (fun _ => .ok []) =
      .error "Failed to parse resume: PDF appears to be empty or unreadable" :=
  ⟨by decide, by decide,
   parse_rejects_short_text "John Doe" (fun _ => .ok []) (by decide)⟩

/-! ## The upload operation (main.py, `upload_resume` lines 586-698) -/

/-- The summary of parsed data included in the upload response (main.py
lines 676-684): name, email, phone and the lengths of the skills,
experience and education lists. -/
structure ParsedSummary where
  name : Val
  email : Val
  phone : Val
  skills_count : Nat
  experience_count : Nat
  education_count : Nat

/-- Python `len(v)` on the values that can appear in the summary counts. -/
def pyLen : Val → Nat
  | .vstr s => s.length
  | .vlist xs => xs.length
  | .vdict xs => xs.length
  | _ => 0

/-- The JSON body returned by the upload operation (main.py lines
663-687). -/
structure UploadResponse where
  message : String
  filename : String
  original_filename : String
  s3_key : String
  s3_url : String
  file_size : Nat
  mongodb_id : Option String
  parsed_data : Option ParsedSummary

/-- Outcome of the modelled upload: the HTTP response body and the MongoDB
write, when one happened (`none` when the MongoDB save raised and was
caught). -/
structure UploadOutcome where
  response : UploadResponse
  savedDoc : Option SaveResult

/-- Shallow embedding of the success path of `upload_resume` (main.py
lines 610-687), after S3 upload succeeded.  `parseResult` is the outcome
of `ResumeParser.parse` — the surrounding `try` catches `ValueError` and
every other exception, leaving `parsed_data = None`; `mongoFails` models
the caught MongoDB failure.  The resume metadata passed to
`save_resume_with_profile` and echoed into the response is built from the
generated filename, the original filename, the S3 key and URL and the
file size. -/
def upload_resume (collection : List (String × Dict)) (freshId : String)
    (now : Val) (mongoFails : Bool)
    (unique_filename original_filename s3_key s3_url : String)
    (file_size : Nat) (parseResult : Except String Dict) : UploadOutcome :=
  let resume_data : Dict :=
    [("filename", .vstr unique_filename),
     ("original_filename", .vstr original_filename),
     ("s3_key", .vstr s3_key), ("s3_url", .vstr s3_url),
     ("file_size", .vint file_size)]
  let parsed_data : Option Dict :=
    match parseResult with
    | .ok d => some d
    | .error _ => none
  let saved : Option SaveResult :=
    if mongoFails then none
    else some (save_resume_with_profile collection freshId now resume_data
      parsed_data)
  { response :=
    { message := "Resume uploaded successfully",
      filename := unique_filename,
      original_filename := original_filename,
      s3_key := s3_key, s3_url := s3_url, file_size := file_size,
      mongodb_id := saved.map (fun r => r.returnedId),
      parsed_data :=
        match parsed_data with
        | none => none
        | some d =>
          if d.isEmpty then none
          else some
            { name := pyGetN d "name", email := pyGetN d "email",
              phone := pyGetN d "phone",
              skills_count := pyLen (pyGet d "skills" (.vlist [])),
              experience_count := pyLen (pyGet d "experience" (.vlist [])),
              education_count := pyLen (pyGet d "education" (.vlist [])) } },
    savedDoc := saved }

/-- C6: every extraction-stage failure (the parse outcome is an error, of
any message) degrades the upload to metadata only: the response still
reports success and carries the file metadata, contains no parsed profile
fields, and — when the MongoDB write goes through — the persisted document
is a fresh insert holding exactly the file metadata fields. -/
theorem upload_survives_extraction_failure
    (collection : List (String × Dict)) (freshId : String) (now : Val)
    (mongoFails : Bool) (fn ofn key url : String) (size : Nat)
    (err : String)
    (hm : mongoFails = false) :
    (upload_resume collection freshId now mongoFails fn ofn key url size
      (.error err)).response.parsed_data = none ∧
    (upload_resume collection freshId now mongoFails fn ofn key url size
      (.error err)).response.message = "Resume uploaded successfully" ∧
    (upload_resume collection freshId now mongoFails fn ofn key url size
      (.error err)).response.filename = fn ∧
    (upload_resume collection freshId now mongoFails fn ofn key url size
      (.error err)).response.original_filename = ofn ∧
    (upload_resume collection freshId now mongoFails fn ofn key url size
      (.error err)).response.s3_key = key ∧
    (upload_resume collection freshId now mongoFails fn ofn key url size
      (.error err)).response.s3_url = url ∧
    (upload_resume collection freshId now mongoFails fn ofn key url size
      (.error err)).response.file_size = size ∧
    (∃ sr, (upload_resume collection freshId now mongoFails fn ofn key url
        size (.error err)).savedDoc = some sr ∧
      sr.wasUpdate = false ∧
      dictGet sr.written "filename" = some (.vstr fn) ∧
      dictGet sr.written "original_filename" = some (.vstr ofn) ∧
      dictGet sr.written "s3_key" = some (.vstr key) ∧
      dictGet sr.written "s3_url" = some (.vstr url) ∧
      dictGet sr.written "file_size" = some (.vint size) ∧
      dictGet sr.written "status" = some (.vstr "uploaded") ∧
      dictGet sr.written "created_at" = some now) := by
  subst hm
  refine ⟨rfl, rfl, rfl, rfl, rfl, rfl, rfl, ?_⟩
  refine ⟨_, rfl, rfl, ?_, ?_, ?_, ?_, ?_, ?_, ?_⟩
  all_goals
    show dictGet (dictSet (baseDocument _ now) "created_at" now) _ = _
  · rw [dictGet_dictSet_ne _ _ _ _ (by decide)]
    rfl
  · rw [dictGet_dictSet_ne _ _ _ _ (by decide)]
    rfl
  · rw [dictGet_dictSet_ne _ _ _ _ (by decide)]
    rfl
  · rw [dictGet_dictSet_ne _ _ _ _ (by decide)]
    rfl
  · rw [dictGet_dictSet_ne _ _ _ _ (by decide)]
    rfl
  · rw [dictGet_dictSet_ne _ _ _ _ (by decide)]
    rfl
  · rw [dictGet_dictSet_self]

/-- C6 witness: a concrete failed extraction over an empty collection. -/
theorem upload_survives_extraction_failure_witness :
    (upload_resume [] "id9" (.vint 5) false "u.pdf" "cv.pdf" "resumes/u.pdf"
      "https://bucket/resumes/u.pdf" 321
      (.error "Gemini API error")).response.parsed_data = none ∧
    (∃ sr, (upload_resume [] "id9" (.vint 5) false "u.pdf" "cv.pdf"
        "resumes/u.pdf" "https://bucket/resumes/u.pdf" 321
        (.error "Gemini API error")).savedDoc = some sr ∧
      sr.wasUpdate = false ∧
      dictGet sr.written "filename" = some (.vstr "u.pdf") ∧
      dictGet sr.written "original_filename" = some (.vstr "cv.pdf") ∧
      dictGet sr.written "s3_key" = some (.vstr "resumes/u.pdf") ∧
      dictGet sr.written "s3_url" =
        some (.vstr "https://bucket/resumes/u.pdf") ∧
      dictGet sr.written "file_size" = some (.vint 321) ∧
      dictGet sr.written "status" = some (.vstr "uploaded") ∧
      dictGet sr.written "created_at" = some (.vint 5)) := by
  have h := upload_survives_extraction_failure [] "id9" (.vint 5) false
    "u.pdf" "cv.pdf" "resumes/u.pdf" "https://bucket/resumes/u.pdf" 321
    "Gemini API error" rfl
  exact ⟨h.1, h.2.2.2.2.2.2.2⟩
